import Mathlib

/-!
Verification of the AfriSuno audio-processing core.

The definitions below are a shallow embedding of the TypeScript audio
pipeline (waveshaping curve, modulation-effect graph builders, PCM/WAV
encoder, MP3 adapter, mastering render configuration, fade automation, and
the analysis pre-processor).  Samples are modelled as rationals; the
JavaScript conversion of a Number to a 16-bit integer (ToIntegerOrInfinity,
i.e. truncation toward zero) is modelled by truncQ.
-/

namespace AfriSuno

/-- Truncation toward zero, as performed by JavaScript when a Number is
stored through DataView.setInt16 or an Int16Array element write. -/
def truncQ (q : ℚ) : ℤ := q.num.tdiv q.den

/-- Clamp a rational to the interval lo..hi, as Math.max(lo, Math.min(hi, x)). -/
def clampQ (lo hi x : ℚ) : ℚ := max lo (min hi x)

/-- A decoded multi-channel audio buffer: channel count, sample rate and the
per-channel sample lists (Web Audio AudioBuffer). -/
structure AudioBuffer where
  numberOfChannels : ℕ
  sampleRate : ℕ
  channelData : List (List ℚ)

/-- buffer.getChannelData(c), the sample list of channel c. -/
def getChannelData (buf : AudioBuffer) (c : ℕ) : List ℚ :=
  buf.channelData.getD c []

/-- buffer.duration: frame count of channel 0 divided by the sample rate. -/
def bufDuration (buf : AudioBuffer) : ℚ :=
  ((getChannelData buf 0).length : ℚ) / (buf.sampleRate : ℚ)

/-- Intensity values of AudioProcessOptions. -/
inductive Intensity
  | low
  | medium
  | high
deriving DecidableEq, Repr

/-- stereoWidth values of AudioProcessOptions. -/
inductive StereoWidth
  | normal
  | wide
deriving DecidableEq, Repr

/-- exportFormat values of AudioProcessOptions. -/
inductive ExportFormat
  | mp3
  | wav
deriving DecidableEq, Repr

/-- preset values of AudioProcessOptions (MasteringPreset). -/
inductive MasteringPreset
  | balanced
  | pop
  | electronic
  | rock
  | lofi
deriving DecidableEq, Repr

/-- The creativeFx field: chorus / phaser / flanger intensities. -/
structure CreativeFx where
  chorus : ℚ
  phaser : ℚ
  flanger : ℚ
deriving DecidableEq, Repr

/-- AudioProcessOptions from types.ts. -/
structure AudioProcessOptions where
  intensity : Intensity
  stereoWidth : StereoWidth
  enableWarmth : Bool
  enableFades : Bool
  enableNaturalizer : Bool
  exportFormat : ExportFormat
  preset : Option MasteringPreset
  creativeFx : CreativeFx

/-- The derived mastering parameters computed at the top of processAudio
(the local object named config in the source). -/
structure MasterConfig where
  safetyHeadroom : ℚ
  compThreshold : ℚ
  compRatioVal : ℚ
  finalGain : ℚ
deriving DecidableEq, Repr

/-- The config object of processAudio: safetyHeadroom −20 always,
threshold −28 / ratio 2.5 / makeup +15 for high intensity, otherwise
−24 / 1.5 / +13. -/
def derivedConfig (o : AudioProcessOptions) : MasterConfig :=
  { safetyHeadroom := -20
    compThreshold := if o.intensity = Intensity.high then -28 else -24
    compRatioVal := if o.intensity = Intensity.high then 5/2 else 3/2
    finalGain := if o.intensity = Intensity.high then 15 else 13 }

/-- The shape (channel count, frame count, sample rate) of a rendered
buffer.  Models the Web Audio OfflineAudioContext contract: rendering
completes with a buffer whose channel count, length and sample rate are
exactly the three constructor arguments. -/
structure RenderedShape where
  channels : ℕ
  frames : ℕ
  rate : ℕ
deriving DecidableEq, Repr

/-- Shape of the mastering render of processAudio:
OfflineAudioContext(2, Math.ceil(duration * 48000), 48000). -/
def masterRenderShape (duration : ℚ) : RenderedShape :=
  { channels := 2
    frames := (⌈duration * 48000⌉).toNat
    rate := 48000 }

/-- Shape of the analysis render of optimizeAudioForAnalysis:
duration = Math.min(buffer.duration, 180),
OfflineAudioContext(1, Math.floor(duration * 16000), 16000). -/
def optimizeRenderShape (duration : ℚ) : RenderedShape :=
  { channels := 1
    frames := (⌊min duration 180 * 16000⌋).toNat
    rate := 16000 }

/-- Little-endian bytes of a 16-bit unsigned value (DataView.setUint16). -/
def u16le (v : ℕ) : List ℕ := [v % 256, v / 256 % 256]

/-- Little-endian bytes of a 32-bit unsigned value (DataView.setUint32). -/
def u32le (v : ℕ) : List ℕ :=
  [v % 256, v / 256 % 256, v / 65536 % 256, v / 16777216 % 256]

/-- Little-endian bytes of a 16-bit signed value (DataView.setInt16):
two's complement, i.e. the value reduced modulo 65536. -/
def i16le (v : ℤ) : List ℕ := u16le (v % 65536).toNat

/-- Byte values of the characters of a header tag (writeString). -/
def strBytes (s : String) : List ℕ := s.toList.map Char.toNat

/-- Sample conversion of audioBufferToWav: clamp to −0.95..0.95, scale
negative values by 0x8000 and non-negative ones by 0x7FFF, truncate. -/
def wavConvert (sample : ℚ) : ℤ :=
  let s := clampQ (-(95/100)) (95/100) sample
  truncQ (if s < 0 then s * 32768 else s * 32767)

/-- Sample conversion of bufferToWavBlob: clamp to −1..1, scale negative
values by 0x8000 and non-negative ones by 0x7FFF, truncate. -/
def blobConvert (sample : ℚ) : ℤ :=
  let s := clampQ (-1) 1 sample
  truncQ (if s < 0 then s * 32768 else s * 32767)

/-- Sample conversion of audioBufferToMp3: clamp to −0.95..0.95, scale
negative values by 32768 and non-negative ones by 32767, truncate. -/
def mp3Convert (sample : ℚ) : ℤ :=
  let s := clampQ (-(95/100)) (95/100) sample
  truncQ (if s < 0 then s * 32768 else s * 32767)

/-- The 44-byte RIFF/WAVE header written by audioBufferToWav and
bufferToWavBlob, parameterized by channel count, sample rate and the
size in bytes of the data section. -/
def wavHeader (numChannels sampleRate wavDataLength : ℕ) : List ℕ :=
  strBytes ("RIFF") ++ u32le (36 + wavDataLength) ++
  strBytes ("WAVE") ++ strBytes ("fmt ") ++
  u32le 16 ++ u16le 1 ++ u16le numChannels ++ u32le sampleRate ++
  u32le (sampleRate * (numChannels * 2)) ++ u16le (numChannels * 2) ++
  u16le 16 ++ strBytes ("data") ++ u32le wavDataLength

/-- Interleaved sample bytes of audioBufferToWav: the outer loop runs over
the frames of channel 0, the inner loop over the channels. -/
def wavDataBytes (buf : AudioBuffer) : List ℕ :=
  (List.range (getChannelData buf 0).length).flatMap fun i =>
    (List.range buf.numberOfChannels).flatMap fun channel =>
      i16le (wavConvert ((getChannelData buf channel).getD i 0))

/-- audioBufferToWav: 44-byte header followed by the interleaved clamped
16-bit samples, little endian. -/
def audioBufferToWav (buf : AudioBuffer) : List ℕ :=
  let numChannels := buf.numberOfChannels
  let dataLength := (getChannelData buf 0).length
  wavHeader numChannels buf.sampleRate (dataLength * numChannels * 2) ++
    wavDataBytes buf

/-- bufferToWavBlob: the minimal mono WAV encoder of the analysis
pre-processor; 44-byte header with numChannels fixed to 1 followed by the
samples of channel 0 converted with blobConvert. -/
def bufferToWavBlob (buf : AudioBuffer) : List ℕ :=
  let data := getChannelData buf 0
  wavHeader 1 buf.sampleRate (data.length * 2) ++
    data.flatMap fun s => i16le (blobConvert s)

/-- The transfer function applied by makeSilkCurve at a given position x
of its domain sweep: identity below 0.7 in magnitude, otherwise a
tanh soft knee scaled by 0.25 above the 0.7 shoulder. -/
noncomputable def silkShape (x : ℝ) : ℝ :=
  if |x| < 0.7 then x
  else (if x < 0 then -1 else 1) * (0.7 + Real.tanh (|x| - 0.7) * 0.25)

/-- Entry i of the 48000-entry waveshaping lookup table of makeSilkCurve:
the transfer function evaluated at x = i * 2 / 48000 - 1. -/
noncomputable def makeSilkCurve (i : ℕ) : ℝ :=
  silkShape ((i : ℝ) * 2 / 48000 - 1)

/-- Kinds of Web Audio nodes allocated by the creative-FX helpers. -/
inductive NodeKind
  | channelSplitter (outputs : ℕ)
  | channelMerger (inputs : ℕ)
  | delayNode
  | oscillator
  | gainNode
  | biquadFilter
deriving DecidableEq, Repr

/-- AudioParams assigned or modulated by the creative-FX helpers. -/
inductive ParamKind
  | delayTimeP
  | frequencyP
  | gainP
deriving DecidableEq, Repr

/-- Oscillator waveform assignments made by the helpers. -/
inductive OscType
  | sine
  | triangle
deriving DecidableEq, Repr

/-- BiquadFilter type assignments made by the helpers. -/
inductive FilterType
  | allpass
deriving DecidableEq, Repr

/-- One observable action performed on the audio graph: node creation,
node-to-node connection (with output/input indices), connection of a node
output to an AudioParam, a parameter value assignment, an oscillator or
filter type assignment, or an oscillator start. -/
inductive GraphEvent
  | createNode (id : ℕ) (kind : NodeKind)
  | connect (src dst : ℕ) (outputIdx inputIdx : ℕ)
  | connectToParam (src dst : ℕ) (p : ParamKind)
  | setParam (id : ℕ) (p : ParamKind) (value : ℚ)
  | setOscType (id : ℕ) (t : OscType)
  | setFilterType (id : ℕ) (t : FilterType)
  | startNode (id : ℕ)
deriving DecidableEq, Repr

/-- The mutable audio-graph state: a fresh-node counter and the ordered
list of graph actions performed so far. -/
structure Graph where
  nextId : ℕ
  events : List GraphEvent
deriving DecidableEq, Repr

/-- Allocate a fresh node of the given kind (a ctx.createXxx call). -/
def newNode (g : Graph) (k : NodeKind) : Graph × ℕ :=
  ({ nextId := g.nextId + 1,
     events := g.events ++ [GraphEvent.createNode g.nextId k] }, g.nextId)

/-- Record one further graph action. -/
def emitEvent (g : Graph) (e : GraphEvent) : Graph :=
  { g with events := g.events ++ [e] }

/-- createChorus: strict bypass when intensity is not positive; otherwise
the split / dual-modulated-delay / merge / wet-blend sub-graph of the
source, with every node allocation, parameter assignment and connection
recorded in source order. -/
def createChorus (g0 : Graph) (input : ℕ) (intensity : ℚ) : Graph × ℕ :=
  if intensity ≤ 0 then (g0, input) else
  let p1 := newNode g0 (NodeKind.channelSplitter 2)
  let p2 := newNode p1.1 (NodeKind.channelMerger 2)
  let g3 := emitEvent p2.1 (GraphEvent.connect input p1.2 0 0)
  let p4 := newNode g3 NodeKind.delayNode
  let p5 := newNode p4.1 NodeKind.delayNode
  let g6 := emitEvent p5.1 (GraphEvent.setParam p4.2 ParamKind.delayTimeP (2/100))
  let g7 := emitEvent g6 (GraphEvent.setParam p5.2 ParamKind.delayTimeP (25/1000))
  let p8 := newNode g7 NodeKind.oscillator
  let g9 := emitEvent p8.1 (GraphEvent.setOscType p8.2 OscType.sine)
  let g10 := emitEvent g9 (GraphEvent.setParam p8.2 ParamKind.frequencyP (3/2))
  let p11 := newNode g10 NodeKind.gainNode
  let p12 := newNode p11.1 NodeKind.gainNode
  let g13 := emitEvent p12.1 (GraphEvent.setParam p11.2 ParamKind.gainP (2/1000 * intensity))
  let g14 := emitEvent g13 (GraphEvent.setParam p12.2 ParamKind.gainP (-(2/1000) * intensity))
  let g15 := emitEvent g14 (GraphEvent.connect p8.2 p11.2 0 0)
  let g16 := emitEvent g15 (GraphEvent.connectToParam p11.2 p4.2 ParamKind.delayTimeP)
  let g17 := emitEvent g16 (GraphEvent.connect p8.2 p12.2 0 0)
  let g18 := emitEvent g17 (GraphEvent.connectToParam p12.2 p5.2 ParamKind.delayTimeP)
  let g19 := emitEvent g18 (GraphEvent.startNode p8.2)
  let g20 := emitEvent g19 (GraphEvent.connect p1.2 p4.2 0 0)
  let g21 := emitEvent g20 (GraphEvent.connect p1.2 p5.2 1 0)
  let g22 := emitEvent g21 (GraphEvent.connect p4.2 p2.2 0 0)
  let g23 := emitEvent g22 (GraphEvent.connect p5.2 p2.2 0 1)
  let p24 := newNode g23 NodeKind.gainNode
  let g25 := emitEvent p24.1 (GraphEvent.setParam p24.2 ParamKind.gainP (1/2 * intensity))
  let g26 := emitEvent g25 (GraphEvent.connect p2.2 p24.2 0 0)
  let g27 := emitEvent g26 (GraphEvent.connect input p24.2 0 0)
  (g27, p24.2)

/-- One stage of the phaser cascade: allocate an allpass biquad at
1000 Hz and chain it onto the running node. -/
def phaserStage (acc : Graph × ℕ × List ℕ) : Graph × ℕ × List ℕ :=
  let p := newNode acc.1 NodeKind.biquadFilter
  let g2 := emitEvent p.1 (GraphEvent.setFilterType p.2 FilterType.allpass)
  let g3 := emitEvent g2 (GraphEvent.setParam p.2 ParamKind.frequencyP 1000)
  let g4 := emitEvent g3 (GraphEvent.connect acc.2.1 p.2 0 0)
  (g4, p.2, acc.2.2 ++ [p.2])

/-- createPhaser: strict bypass when intensity is not positive; otherwise
4 cascaded allpass filters modulated by a shared triangle LFO, a dry/wet
sum and a feedback path from the cascade tail into the first filter. -/
def createPhaser (g0 : Graph) (input : ℕ) (intensity : ℚ) : Graph × ℕ :=
  if intensity ≤ 0 then (g0, input) else
  let acc := ((List.range 4).foldl (fun a _ => phaserStage a) (g0, input, []))
  let gA := acc.1
  let node := acc.2.1
  let filters := acc.2.2
  let pB := newNode gA NodeKind.oscillator
  let gC := emitEvent pB.1 (GraphEvent.setOscType pB.2 OscType.triangle)
  let gD := emitEvent gC (GraphEvent.setParam pB.2 ParamKind.frequencyP (1/2))
  let pE := newNode gD NodeKind.gainNode
  let gF := emitEvent pE.1 (GraphEvent.setParam pE.2 ParamKind.gainP (800 * intensity))
  let gG := emitEvent gF (GraphEvent.connect pB.2 pE.2 0 0)
  let gH := filters.foldl
    (fun g f => emitEvent g (GraphEvent.connectToParam pE.2 f ParamKind.frequencyP)) gG
  let gI := emitEvent gH (GraphEvent.startNode pB.2)
  let pJ := newNode gI NodeKind.gainNode
  let gK := emitEvent pJ.1 (GraphEvent.connect node pJ.2 0 0)
  let gL := emitEvent gK (GraphEvent.connect input pJ.2 0 0)
  let pM := newNode gL NodeKind.gainNode
  let gN := emitEvent pM.1 (GraphEvent.setParam pM.2 ParamKind.gainP (2/5 * intensity))
  let gO := emitEvent gN (GraphEvent.connect node pM.2 0 0)
  let gP := emitEvent gO (GraphEvent.connect pM.2 (filters.getD 0 0) 0 0)
  (gP, pJ.2)

/-- createFlanger: strict bypass when intensity is not positive; otherwise
a 3 ms delay line with feedback, sine LFO delay-time modulation and a
fixed 0.5 wet blend. -/
def createFlanger (g0 : Graph) (input : ℕ) (intensity : ℚ) : Graph × ℕ :=
  if intensity ≤ 0 then (g0, input) else
  let p1 := newNode g0 NodeKind.delayNode
  let g2 := emitEvent p1.1 (GraphEvent.setParam p1.2 ParamKind.delayTimeP (3/1000))
  let p3 := newNode g2 NodeKind.gainNode
  let g4 := emitEvent p3.1 (GraphEvent.setParam p3.2 ParamKind.gainP (1/2 * intensity))
  let p5 := newNode g4 NodeKind.oscillator
  let g6 := emitEvent p5.1 (GraphEvent.setParam p5.2 ParamKind.frequencyP (3/10))
  let p7 := newNode g6 NodeKind.gainNode
  let g8 := emitEvent p7.1 (GraphEvent.setParam p7.2 ParamKind.gainP (2/1000 * intensity))
  let g9 := emitEvent g8 (GraphEvent.connect p5.2 p7.2 0 0)
  let g10 := emitEvent g9 (GraphEvent.connectToParam p7.2 p1.2 ParamKind.delayTimeP)
  let g11 := emitEvent g10 (GraphEvent.startNode p5.2)
  let g12 := emitEvent g11 (GraphEvent.connect input p1.2 0 0)
  let g13 := emitEvent g12 (GraphEvent.connect p1.2 p3.2 0 0)
  let g14 := emitEvent g13 (GraphEvent.connect p3.2 p1.2 0 0)
  let p15 := newNode g14 NodeKind.gainNode
  let g16 := emitEvent p15.1 (GraphEvent.setParam p15.2 ParamKind.gainP (1/2))
  let g17 := emitEvent g16 (GraphEvent.connect p1.2 p15.2 0 0)
  let g18 := emitEvent g17 (GraphEvent.connect input p15.2 0 0)
  (g18, p15.2)

/-- One encodeBuffer call of the MP3 adapter: a left 16-bit chunk and an
optional right 16-bit chunk. -/
structure Mp3Feed where
  left : List ℤ
  right : Option (List ℤ)
deriving DecidableEq, Repr

/-- Start indices of the 1152-sample blocks fed by the loop
for (i = 0; i < length; i += 1152). -/
def chunkStarts (len : ℕ) : List ℕ :=
  (List.range ((len + 1151) / 1152)).map fun k => k * 1152

/-- The sequence of encodeBuffer calls performed by audioBufferToMp3:
channel 0 (and channel 1 when present) converted to clamped 16-bit
integers and cut into 1152-sample blocks; for mono buffers the right
chunk argument is undefined. -/
def mp3FeedCalls (buf : AudioBuffer) : List Mp3Feed :=
  let channels := buf.numberOfChannels
  let samplesLeft := getChannelData buf 0
  let samplesRight := if 1 < channels then getChannelData buf 1 else samplesLeft
  let len := samplesLeft.length
  let leftInt16 := (List.range len).map fun i => mp3Convert (samplesLeft.getD i 0)
  let rightInt16 :=
    if 1 < channels then (List.range len).map fun i => mp3Convert (samplesRight.getD i 0)
    else List.replicate len 0
  (chunkStarts len).map fun i =>
    { left := (leftInt16.drop i).take 1152
      right := if 1 < channels then some ((rightInt16.drop i).take 1152) else none }

/-- An abstract stateful block codec (the lamejs Mp3Encoder): a streaming
encode call and a flush call, each emitting compressed bytes. -/
structure Mp3Codec (σ : Type) where
  encodeBuffer : σ → List ℤ → Option (List ℤ) → σ × List ℕ
  flush : σ → List ℕ

/-- All chunks emitted by running the codec over a call sequence, with
the final codec state. -/
def encodeAll {σ : Type} (codec : Mp3Codec σ) : σ → List Mp3Feed → σ × List (List ℕ)
  | s, [] => (s, [])
  | s, c :: rest =>
    let p := codec.encodeBuffer s c.left c.right
    let q := encodeAll codec p.1 rest
    (q.1, p.2 :: q.2)

/-- The encode loop of audioBufferToMp3: each emitted chunk is pushed
only when non-empty. -/
def mp3Loop {σ : Type} (codec : Mp3Codec σ) : σ → List Mp3Feed → σ × List (List ℕ)
  | s, [] => (s, [])
  | s, c :: rest =>
    let p := codec.encodeBuffer s c.left c.right
    let q := mp3Loop codec p.1 rest
    (q.1, if 0 < p.2.length then p.2 :: q.2 else q.2)

/-- audioBufferToMp3: feed the 1152-sample blocks through the codec,
append the flush chunk when non-empty, and concatenate everything. -/
def audioBufferToMp3 {σ : Type} (codec : Mp3Codec σ) (s0 : σ) (buf : AudioBuffer) : List ℕ :=
  let r := mp3Loop codec s0 (mp3FeedCalls buf)
  let fl := codec.flush r.1
  (if 0 < fl.length then r.2 ++ [fl] else r.2).flatten

/-- The export branch at the tail of processAudio: WAV bytes when
exportFormat is wav, MP3 bytes otherwise. -/
def processAudioOutput {σ : Type} (codec : Mp3Codec σ) (s0 : σ)
    (o : AudioProcessOptions) (renderedBuffer : AudioBuffer) : List ℕ :=
  if o.exportFormat = ExportFormat.wav then audioBufferToWav renderedBuffer
  else audioBufferToMp3 codec s0 renderedBuffer

/-- An AudioParam automation event: setValueAtTime or
linearRampToValueAtTime, with target value and time. -/
inductive AEvent
  | setValue (v t : ℚ)
  | linearRamp (v t : ℚ)
deriving DecidableEq, Repr

/-- The time of an automation event. -/
def AEvent.time : AEvent → ℚ
  | AEvent.setValue _ t => t
  | AEvent.linearRamp _ t => t

/-- Insert an automation event into a time-ordered list, after all events
of equal or earlier time (the Web Audio timeline keeps events sorted by
time, later-inserted events after earlier ones at equal times). -/
def insertEvent (e : AEvent) : List AEvent → List AEvent
  | [] => [e]
  | f :: rest => if f.time ≤ e.time then f :: insertEvent e rest else e :: f :: rest

/-- The time-ordered automation timeline built from a call sequence. -/
def schedule (calls : List AEvent) : List AEvent :=
  calls.foldl (fun acc e => insertEvent e acc) []

/-- The value of an automated AudioParam at time t, given the previous
anchor value and time and the remaining time-ordered events: a setValue
event holds the previous value until its time, a linearRamp event
interpolates linearly from the previous anchor to its target.  Models the
Web Audio AudioParam automation contract. -/
def valueAt (pv pt : ℚ) : List AEvent → ℚ → ℚ
  | [], _ => pv
  | AEvent.setValue v te :: rest, t =>
      if t < te then pv else valueAt v te rest t
  | AEvent.linearRamp v te :: rest, t =>
      if t < te then (if pt < te then pv + (v - pv) * (t - pt) / (te - pt) else v)
      else valueAt v te rest t

/-- The four fade automation calls of processAudio, in call order:
gain 0 at 0, linear ramp to 1 at 0.8, gain 1 at max(0, duration − 3),
linear ramp to 0 at duration. -/
def fadeCalls (duration : ℚ) : List AEvent :=
  [AEvent.setValue 0 0,
   AEvent.linearRamp 1 (4/5),
   AEvent.setValue 1 (max 0 (duration - 3)),
   AEvent.linearRamp 0 duration]

/-- The fade gain envelope of processAudio: the automation timeline of
fadeCalls evaluated from the GainNode default value 1 at time 0. -/
def fadeEnvelope (duration t : ℚ) : ℚ :=
  valueAt 1 0 (schedule (fadeCalls duration)) t

/-- The envelope shape asserted by the specification: linear ramp 0 to 1
over the first 0.8 s, hold at 1 until max(0, duration − 3), then linear
ramp down to 0 at duration. -/
def claimedFade (duration t : ℚ) : ℚ :=
  if t ≤ 4/5 then t / (4/5)
  else if t ≤ max 0 (duration - 3) then 1
  else 1 - (t - max 0 (duration - 3)) / (duration - max 0 (duration - 3))

/-- The base64 alphabet. -/
def base64Table : List Char :=
  ("ABCDEFGHIJKLMNOPQRSTUVWXYZabcdefghijklmnopqrstuvwxyz0123456789+/").toList

/-- Character of a 6-bit group. -/
def b64c (n : ℕ) : Char := base64Table.getD n (Char.ofNat 65)

/-- Standard base64 of a byte list (the encoding produced by
FileReader.readAsDataURL after the comma), with trailing-group padding. -/
def base64Of : List ℕ → List Char
  | [] => []
  | [a] => [b64c (a / 4 % 64), b64c (a % 4 * 16), Char.ofNat 61, Char.ofNat 61]
  | [a, b] => [b64c (a / 4 % 64), b64c ((a % 4 * 16 + b / 16) % 64),
               b64c (b % 16 * 4 % 64), Char.ofNat 61]
  | a :: b :: c :: rest =>
      [b64c (a / 4 % 64), b64c ((a % 4 * 16 + b / 16) % 64),
       b64c ((b % 16 * 4 + c / 64) % 64), b64c (c % 64)] ++ base64Of rest

/-- The data URL produced by FileReader.readAsDataURL on the WAV blob:
the audio/wav base64 prefix followed by the base64 bytes.  Models the
FileReader contract. -/
def dataUrlOf (bytes : List ℕ) : List Char :=
  ("data:audio/wav;base64,").toList ++ base64Of bytes

/-- reader.result.split(sep)[1] for sep a comma: the characters between
the first comma and the next comma or the end. -/
def afterComma : List Char → List Char
  | [] => []
  | c :: rest => if c = Char.ofNat 44 then rest.takeWhile (fun d => d ≠ Char.ofNat 44)
                 else afterComma rest

/-- Failure kinds surfaced by the analysis pre-processor. -/
inductive OptError
  | decodeFailure
  | renderFailure
  | encodeFailure
deriving DecidableEq, Repr

/-- optimizeAudioForAnalysis: decode (may fail), render min(duration,
180 s) as mono 16 kHz (may fail), encode with bufferToWavBlob, read as a
data URL (may fail) and return the base64 part after the comma.  Each
failing step propagates its error; decoding and rendering are external
calls and enter as parameters. -/
def optimizeAudioForAnalysis (decodeResult : Except OptError AudioBuffer)
    (render : RenderedShape → AudioBuffer → Except OptError AudioBuffer)
    (readerOk : Bool) : Except OptError (List Char) := do
  let audioBuffer ← decodeResult
  let renderedBuffer ← render (optimizeRenderShape (bufDuration audioBuffer)) audioBuffer
  let wavBytes := bufferToWavBlob renderedBuffer
  if readerOk then pure (afterComma (dataUrlOf wavBytes))
  else throw OptError.encodeFailure

end AfriSuno

namespace AfriSuno

/-! Theorems. -/

attribute [local semireducible] Rat.add Rat.mul Rat.inv Rat.sub Rat.ofScientific

/-- truncQ is the ceiling for negative arguments and the floor otherwise,
i.e. truncation toward zero. -/
theorem truncQ_eq (q : ℚ) : truncQ q = if q < 0 then ⌈q⌉ else ⌊q⌋ := by
  unfold truncQ
  by_cases h : q < 0
  · rw [if_pos h]
    have hnum : q.num < 0 := by rwa [Rat.num_neg]
    have h1 : q.num.tdiv q.den = -((-q.num).tdiv q.den) := by
      rw [← Int.neg_tdiv, Int.neg_neg]
    rw [h1, Int.tdiv_eq_ediv (by omega) (by positivity)]
    have h2 : ((-q).num) / ((-q).den : ℤ) = ⌊-q⌋ := (Rat.floor_def).symm
    rw [Rat.neg_num, Rat.neg_den] at h2
    rw [h2, Int.floor_neg, Int.neg_neg]
  · rw [if_neg h]
    push_neg at h
    have hnum : 0 ≤ q.num := by rwa [Rat.num_nonneg]
    rw [Int.tdiv_eq_ediv hnum (by positivity), Rat.floor_def]

/-- The clamp lands in the clamping interval whenever it is non-empty. -/
theorem clampQ_mem (lo hi x : ℚ) (h : lo ≤ hi) :
    lo ≤ clampQ lo hi x ∧ clampQ lo hi x ≤ hi := by
  constructor
  · exact le_max_left _ _
  · exact max_le h (min_le_left _ _)

/-- C2: the PCM encoder's sample conversion clamps to −0.95..0.95 before
scaling, so every emitted 16-bit value lies within the scaled headroom
range — never below −0.95·32768 nor above 0.95·32767 and in particular
never at full scale — and the extreme inputs +1.0 and −1.0 map to 31128
and −31129. -/
theorem wavConvert_clamped_range (s : ℚ) :
    (-(95/100) * 32768 : ℚ) ≤ (wavConvert s : ℚ)
    ∧ ((wavConvert s : ℚ) ≤ (95/100) * 32767)
    ∧ (-32768 < wavConvert s ∧ wavConvert s < 32767)
    ∧ wavConvert 1 = 31128 ∧ wavConvert (-1) = -31129 := by
  have hb := clampQ_mem (-(95/100)) (95/100) s (by norm_num)
  set c := clampQ (-(95/100)) (95/100) s with hc
  have hval : wavConvert s = truncQ (if c < 0 then c * 32768 else c * 32767) := rfl
  by_cases hneg : c < 0
  · rw [hval, if_pos hneg, truncQ_eq, if_pos (by nlinarith [hb.1, hb.2])]
    have hq1 : (-(95/100) * 32768 : ℚ) ≤ c * 32768 := by nlinarith [hb.1]
    have hq2 : c * 32768 ≤ 0 := by nlinarith
    have hceil1 : (-(95/100) * 32768 : ℚ) ≤ (⌈c * 32768⌉ : ℚ) :=
      le_trans hq1 (Int.le_ceil _)
    have hceil2 : ⌈c * 32768⌉ ≤ 0 := Int.ceil_le.mpr (by exact_mod_cast hq2)
    refine ⟨hceil1, ?_, ⟨?_, ?_⟩, by decide, by decide⟩
    · calc ((⌈c * 32768⌉ : ℤ) : ℚ) ≤ 0 := by exact_mod_cast hceil2
        _ ≤ (95/100) * 32767 := by norm_num
    · have : (-32768 : ℚ) < (⌈c * 32768⌉ : ℚ) := lt_of_lt_of_le (by norm_num) hceil1
      exact_mod_cast this
    · omega
  · rw [hval, if_neg hneg, truncQ_eq, if_neg (by push_neg at hneg ⊢; nlinarith [hb.1])]
    push_neg at hneg
    have hq1 : (0:ℚ) ≤ c * 32767 := by nlinarith
    have hq2 : c * 32767 ≤ (95/100) * 32767 := by nlinarith [hb.2]
    have hfl1 : (0:ℤ) ≤ ⌊c * 32767⌋ := Int.floor_nonneg.mpr hq1
    have hfl2 : ((⌊c * 32767⌋ : ℤ) : ℚ) ≤ (95/100) * 32767 :=
      le_trans (Int.floor_le _) hq2
    refine ⟨?_, hfl2, ⟨?_, ?_⟩, by decide, by decide⟩
    · calc (-(95/100) * 32768 : ℚ) ≤ 0 := by norm_num
        _ ≤ ((⌊c * 32767⌋ : ℤ) : ℚ) := by exact_mod_cast hfl1
    · omega
    · have : ((⌊c * 32767⌋ : ℤ) : ℚ) < 32767 := lt_of_le_of_lt hfl2 (by norm_num)
      exact_mod_cast this

/-- C4: each of the Chorus, Phaser and Flanger constructors is a strict
bypass for non-positive intensity: it returns the input node itself and
leaves the graph state untouched (no nodes allocated, no connections
made), exactly as if the stage were omitted. -/
theorem creativeFx_bypass (g : Graph) (input : ℕ) (i : ℚ) (h : i ≤ 0) :
    createChorus g input i = (g, input)
    ∧ createPhaser g input i = (g, input)
    ∧ createFlanger g input i = (g, input) := by
  refine ⟨?_, ?_, ?_⟩ <;>
    simp [createChorus, createPhaser, createFlanger, h]

/-- Witness for creativeFx_bypass at intensity 0 on a fresh graph. -/
theorem creativeFx_bypass_witness :
    ((0:ℚ) ≤ 0)
    ∧ (createChorus ⟨0, []⟩ 7 0 = (⟨0, []⟩, 7)
       ∧ createPhaser ⟨0, []⟩ 7 0 = (⟨0, []⟩, 7)
       ∧ createFlanger ⟨0, []⟩ 7 0 = (⟨0, []⟩, 7)) :=
  ⟨le_refl 0, creativeFx_bypass ⟨0, []⟩ 7 0 (le_refl 0)⟩

/-- The WAV header is always 44 bytes. -/
theorem wavHeader_length (nc sr dl : ℕ) : (wavHeader nc sr dl).length = 44 := by
  simp [wavHeader, strBytes, u16le, u32le]

/-- Taking 44 bytes of a header-plus-data byte list yields the header. -/
theorem take44_header (h t : List ℕ) (hlen : h.length = 44) : (h ++ t).take 44 = h := by
  rw [List.take_append_of_le_length (by omega)]
  exact List.take_of_length_le (by omega)

/-- flatMap respects pointwise agreement on the list's members. -/
theorem flatMap_congr_mem {α β : Type} (l : List α) (f g : α → List β)
    (h : ∀ x ∈ l, f x = g x) : l.flatMap f = l.flatMap g := by
  induction l with
  | nil => rfl
  | cons a l ih =>
    simp only [List.flatMap_cons]
    rw [h a (by simp), ih fun x hx => h x (by simp [hx])]

/-- An index loop over a list is the same as iterating the list itself. -/
theorem range_flatMap_getD {β : Type} (l : List ℚ) (f : ℚ → List β) :
    (List.range l.length).flatMap (fun i => f (l.getD i 0)) = l.flatMap f := by
  induction l with
  | nil => rfl
  | cons a l ih =>
    rw [List.length_cons, List.range_succ_eq_map, List.flatMap_cons, List.flatMap_map]
    simp only [List.getD_cons_zero, List.getD_cons_succ]
    rw [ih, List.flatMap_cons]

/-- Within the headroom interval the two sample conversions coincide. -/
theorem blobConvert_agrees (s : ℚ) (h1 : -(95/100) ≤ s) (h2 : s ≤ 95/100) :
    blobConvert s = wavConvert s := by
  have e1 : clampQ (-1) 1 s = s := by
    unfold clampQ
    rw [min_eq_right (by linarith), max_eq_right (by linarith)]
  have e2 : clampQ (-(95/100)) (95/100) s = s := by
    unfold clampQ
    rw [min_eq_right h2, max_eq_right h1]
  unfold blobConvert wavConvert
  rw [e1, e2]

/-- C3 counterexample: on a mono buffer holding the single sample 1.0 the
two encoders disagree (bufferToWavBlob clamps to full scale and emits
32767 where audioBufferToWav emits 31128), so their outputs are not
byte-identical. -/
theorem blob_wav_differ_at_fullscale :
    bufferToWavBlob ⟨1, 16000, [[1]]⟩ ≠ audioBufferToWav ⟨1, 16000, [[1]]⟩ := by
  decide

/-- C3 amended: for every mono buffer the two encoders produce identical
44-byte headers; the sample conversions agree on every sample within
−0.95..0.95; and on buffers all of whose samples lie in that interval the
outputs are byte-identical.  (They differ on samples outside it, since
bufferToWavBlob clamps to −1..1 instead of −0.95..0.95.) -/
theorem blob_wav_agree (buf : AudioBuffer) (hch : buf.numberOfChannels = 1) (s : ℚ) :
    (bufferToWavBlob buf).take 44 = (audioBufferToWav buf).take 44
    ∧ (-(95/100) ≤ s → s ≤ 95/100 → blobConvert s = wavConvert s)
    ∧ ((∀ x ∈ getChannelData buf 0, -(95/100) ≤ x ∧ x ≤ 95/100) →
        bufferToWavBlob buf = audioBufferToWav buf) := by
  have hwav : audioBufferToWav buf =
      wavHeader 1 buf.sampleRate ((getChannelData buf 0).length * 2) ++ wavDataBytes buf := by
    simp only [audioBufferToWav, hch, mul_one]
  have hblob : bufferToWavBlob buf =
      wavHeader 1 buf.sampleRate ((getChannelData buf 0).length * 2) ++
        ((getChannelData buf 0).flatMap fun s => i16le (blobConvert s)) := by
    simp only [bufferToWavBlob]
  have hdata : wavDataBytes buf =
      (getChannelData buf 0).flatMap fun s => i16le (wavConvert s) := by
    unfold wavDataBytes
    rw [hch]
    calc (List.range (getChannelData buf 0).length).flatMap (fun i =>
          (List.range 1).flatMap fun channel =>
            i16le (wavConvert ((getChannelData buf channel).getD i 0)))
        = (List.range (getChannelData buf 0).length).flatMap (fun i =>
            i16le (wavConvert ((getChannelData buf 0).getD i 0))) := by
          apply flatMap_congr_mem
          intro x _
          simp [List.range_succ, List.flatMap_cons]
      _ = (getChannelData buf 0).flatMap fun s => i16le (wavConvert s) :=
          range_flatMap_getD (getChannelData buf 0) (fun s => i16le (wavConvert s))
  refine ⟨?_, fun h1 h2 => blobConvert_agrees s h1 h2, ?_⟩
  · rw [hwav, hblob]
    rw [take44_header _ _ (wavHeader_length _ _ _), take44_header _ _ (wavHeader_length _ _ _)]
  · intro hall
    rw [hwav, hdata, hblob]
    congr 1
    apply flatMap_congr_mem
    intro x hx
    rw [blobConvert_agrees x (hall x hx).1 (hall x hx).2]

/-- Witness for blob_wav_agree on a one-sample mono buffer. -/
theorem blob_wav_agree_witness :
    (AudioBuffer.numberOfChannels ⟨1, 16000, [[1/2]]⟩ = 1)
    ∧ ((bufferToWavBlob ⟨1, 16000, [[1/2]]⟩).take 44 =
        (audioBufferToWav ⟨1, 16000, [[1/2]]⟩).take 44
       ∧ (-(95/100) ≤ (1/2 : ℚ) → (1/2 : ℚ) ≤ 95/100 →
           blobConvert (1/2) = wavConvert (1/2))
       ∧ ((∀ x ∈ getChannelData ⟨1, 16000, [[1/2]]⟩ 0, -(95/100) ≤ x ∧ x ≤ 95/100) →
           bufferToWavBlob ⟨1, 16000, [[1/2]]⟩ = audioBufferToWav ⟨1, 16000, [[1/2]]⟩)) :=
  ⟨rfl, blob_wav_agree ⟨1, 16000, [[1/2]]⟩ rfl (1/2)⟩

/-- tanh is non-negative on non-negative arguments. -/
theorem tanh_nonneg_of_nonneg (t : ℝ) (h : 0 ≤ t) : 0 ≤ Real.tanh t := by
  rw [Real.tanh_eq_sinh_div_cosh]
  apply div_nonneg _ (Real.cosh_pos t).le
  have h2 : Real.sinh 0 ≤ Real.sinh t := Real.sinh_le_sinh.mpr h
  rwa [Real.sinh_zero] at h2

/-- tanh is strictly below 1. -/
theorem tanh_lt_one (t : ℝ) : Real.tanh t < 1 := by
  rw [Real.tanh_eq_sinh_div_cosh, div_lt_one (Real.cosh_pos t)]
  exact Real.sinh_lt_cosh t

/-- The silk transfer function is odd. -/
theorem silkShape_odd (x : ℝ) : silkShape (-x) = -silkShape x := by
  unfold silkShape
  rw [abs_neg]
  by_cases h : |x| < 0.7
  · simp [h]
  · rw [if_neg h, if_neg h]
    have hx : x ≠ 0 := by
      intro h0
      rw [h0] at h
      simp at h
      norm_num at h
    rcases lt_or_gt_of_ne hx with hlt | hgt
    · rw [if_neg (by linarith : ¬ (-x < 0)), if_pos hlt]
      ring
    · rw [if_pos (by linarith : -x < 0), if_neg (by linarith : ¬ (x < 0))]
      ring

/-- The silk transfer function is bounded in magnitude by 0.95. -/
theorem silkShape_bound (x : ℝ) : |silkShape x| ≤ 0.95 := by
  unfold silkShape
  by_cases h : |x| < 0.7
  · rw [if_pos h]
    linarith
  · rw [if_neg h]
    push_neg at h
    have ht0 : 0 ≤ Real.tanh (|x| - 0.7) := tanh_nonneg_of_nonneg _ (by linarith)
    have ht1 : Real.tanh (|x| - 0.7) < 1 := tanh_lt_one _
    have hbody : |0.7 + Real.tanh (|x| - 0.7) * 0.25| ≤ 0.95 := by
      rw [abs_of_nonneg (by linarith)]
      nlinarith
    by_cases hs : x < 0
    · rw [if_pos hs, abs_mul]
      simpa using hbody
    · rw [if_neg hs, abs_mul]
      simpa using hbody

/-- C5: entry i of the 48000-entry waveshaping table equals the silk
transfer function at x = 2·i/48000 − 1; the transfer function is
odd-symmetric, exactly the identity for magnitudes below 0.7, and every
table entry is bounded in magnitude by 0.95. -/
theorem makeSilkCurve_spec (i : ℕ) (_hi : i < 48000) (x : ℝ) :
    makeSilkCurve i = silkShape (2 * (i : ℝ) / 48000 - 1)
    ∧ silkShape (-x) = -silkShape x
    ∧ (|x| < 0.7 → silkShape x = x)
    ∧ |makeSilkCurve i| ≤ 0.95 := by
  refine ⟨?_, silkShape_odd x, ?_, silkShape_bound _⟩
  · unfold makeSilkCurve
    congr 1
    ring
  · intro hx
    unfold silkShape
    rw [if_pos hx]

/-- Witness for makeSilkCurve_spec at index 0 and input 1/2. -/
theorem makeSilkCurve_spec_witness :
    (0:ℕ) < 48000
    ∧ (makeSilkCurve 0 = silkShape (2 * ((0:ℕ) : ℝ) / 48000 - 1)
       ∧ silkShape (-(1/2 : ℝ)) = -silkShape (1/2)
       ∧ (|(1/2 : ℝ)| < 0.7 → silkShape (1/2) = 1/2)
       ∧ |makeSilkCurve 0| ≤ 0.95) :=
  ⟨by norm_num, makeSilkCurve_spec 0 (by norm_num) (1/2)⟩

/-- C7: the derived mastering parameters are exactly headroom −20 dB
always; threshold −28 dB, ratio 2.5 and makeup +15 dB when intensity is
high; threshold −24 dB, ratio 1.5 and makeup +13 dB otherwise (low and
medium map to the same values). -/
theorem derivedConfig_spec (o : AudioProcessOptions) :
    derivedConfig o =
      (if o.intensity = Intensity.high then
        { safetyHeadroom := -20, compThreshold := -28,
          compRatioVal := 5/2, finalGain := 15 }
       else
        { safetyHeadroom := -20, compThreshold := -24,
          compRatioVal := 3/2, finalGain := 13 }) := by
  by_cases h : o.intensity = Intensity.high <;>
    simp [derivedConfig, h]

/-- C6 counterexample: for a 3.4-second source the scheduled fade events
interleave (the fade-out start 0.4 s precedes the 0.8 s ramp-up end), and
at t = 0.2 s the envelope is 0 while the claimed shape requires 0.25. -/
theorem fadeEnvelope_claim_counterexample :
    fadeEnvelope (17/5) (1/5) = 0
    ∧ claimedFade (17/5) (1/5) = 1/4
    ∧ fadeEnvelope (17/5) (1/5) ≠ claimedFade (17/5) (1/5) :=
  ⟨by decide, by decide, by decide⟩

/-- C6 amended: for every source duration of at least 3.8 s the fade gain
envelope is 0 at t = 0, ramps linearly to 1 at 0.8 s, holds at 1 until
duration − 3 s and ramps linearly to 0 at the duration; in particular for
a 10-second source the gain is 0 at the first sample, 1 at exactly 0.8 s,
still 1 at 7 s, 1/2 at 8.5 s and 0 at 10 s. -/
theorem fadeEnvelope_spec (d t : ℚ) (hd : 19/5 ≤ d) (ht0 : 0 ≤ t) (htd : t ≤ d) :
    fadeEnvelope d t = claimedFade d t
    ∧ fadeEnvelope 10 0 = 0 ∧ fadeEnvelope 10 (4/5) = 1
    ∧ fadeEnvelope 10 7 = 1 ∧ fadeEnvelope 10 (17/2) = 1/2
    ∧ fadeEnvelope 10 10 = 0 := by
  refine ⟨?_, by decide, by decide, by decide, by decide, by decide⟩
  have hfos : max 0 (d - 3) = d - 3 := max_eq_right (by linarith)
  have h1 : (0:ℚ) ≤ 4/5 := by norm_num
  have h2 : (0:ℚ) ≤ d - 3 := by linarith
  have h3 : (4:ℚ)/5 ≤ d - 3 := by linarith
  have h4 : (0:ℚ) ≤ d := by linarith
  have h5 : (4:ℚ)/5 ≤ d := by linarith
  have h6 : d - 3 ≤ d := by linarith
  have hsched : schedule (fadeCalls d) =
      [AEvent.setValue 0 0, AEvent.linearRamp 1 (4/5),
       AEvent.setValue 1 (d - 3), AEvent.linearRamp 0 d] := by
    simp only [schedule, fadeCalls, List.foldl, hfos]
    simp [insertEvent, AEvent.time, h1, h2, h3, h4, h5, h6]
  unfold fadeEnvelope claimedFade
  rw [hsched, hfos]
  have hn0 : ¬ t < 0 := not_lt.mpr ht0
  have hq : (0:ℚ) < 4/5 := by norm_num
  have hpt : d - 3 < d := by linarith
  by_cases hb1 : t < 4/5
  · have hc1 : t ≤ 4/5 := le_of_lt hb1
    simp [valueAt, hn0, hb1, hc1, hq]
  · push_neg at hb1
    have hnb1 : ¬ t < 4/5 := not_lt.mpr hb1
    by_cases hb2 : t < d - 3
    · simp only [valueAt]
      simp only [hn0, hnb1, hb2, if_false, if_true, ite_true, ite_false]
      by_cases hc1 : t ≤ 4/5
      · have ht45 : t = 4/5 := le_antisymm hc1 hb1
        simp [hc1, ht45]
      · simp [hc1, le_of_lt hb2]
    · push_neg at hb2
      have hnb2 : ¬ t < d - 3 := not_lt.mpr hb2
      by_cases hb3 : t < d
      · simp only [valueAt]
        simp only [hn0, hnb1, hnb2, hb3, hpt, if_false, if_true, ite_true, ite_false]
        by_cases hc1 : t ≤ 4/5
        · have ht45 : t = 4/5 := le_antisymm hc1 hb1
          have htd3 : t = d - 3 := le_antisymm (by linarith) hb2
          rw [if_pos hc1, ht45]
          rw [ht45] at htd3
          rw [← htd3]
          norm_num
        · rw [if_neg hc1]
          by_cases hc2 : t ≤ d - 3
          · have htd3 : t = d - 3 := le_antisymm hc2 hb2
            rw [if_pos hc2, htd3]
            simp
          · rw [if_neg hc2]
            ring
      · push_neg at hb3
        have htd2 : t = d := le_antisymm htd hb3
        have hnb3 : ¬ t < d := not_lt.mpr hb3
        simp only [valueAt]
        simp only [hn0, hnb1, hnb2, hnb3, if_false, ite_false]
        have hc1 : ¬ t ≤ 4/5 := by
          intro h
          have : t = 4/5 := le_antisymm h hb1
          rw [this] at htd2
          linarith
        have hc2 : ¬ t ≤ d - 3 := by
          intro h
          rw [htd2] at h
          linarith
        rw [if_neg hc1, if_neg hc2, htd2]
        have : d - (d - 3) = 3 := by ring
        rw [this]
        norm_num

/-- Witness for fadeEnvelope_spec at duration 10 and time 0.8. -/
theorem fadeEnvelope_spec_witness :
    ((19:ℚ)/5 ≤ 10 ∧ (0:ℚ) ≤ 4/5 ∧ (4:ℚ)/5 ≤ 10)
    ∧ (fadeEnvelope 10 (4/5) = claimedFade 10 (4/5)
       ∧ fadeEnvelope 10 0 = 0 ∧ fadeEnvelope 10 (4/5) = 1
       ∧ fadeEnvelope 10 7 = 1 ∧ fadeEnvelope 10 (17/2) = 1/2
       ∧ fadeEnvelope 10 10 = 0) :=
  ⟨⟨by norm_num, by norm_num, by norm_num⟩,
   fadeEnvelope_spec 10 (4/5) (by norm_num) (by norm_num) (by norm_num)⟩


/-- C8: the analysis pre-processor renders 1 channel at 16000 Hz with
frame count floor(min(duration, 180) × 16000) — never more than 180
seconds of frames, exactly 180 × 16000 frames for any source of at least
180 s, and 2880000 frames for a 4-minute source. -/
theorem optimizeRenderShape_spec (d : ℚ) :
    (optimizeRenderShape d).channels = 1
    ∧ (optimizeRenderShape d).rate = 16000
    ∧ (optimizeRenderShape d).frames = (⌊min d 180 * 16000⌋).toNat
    ∧ (optimizeRenderShape d).frames ≤ 180 * 16000
    ∧ (180 ≤ d → (optimizeRenderShape d).frames = 180 * 16000)
    ∧ (optimizeRenderShape 240).frames = 2880000 := by
  refine ⟨rfl, rfl, rfl, ?_, ?_, ?_⟩
  · have h1 : min d 180 * 16000 ≤ (2880000 : ℚ) := by
      have := min_le_right d 180
      nlinarith
    have h2 : ⌊min d 180 * 16000⌋ ≤ (2880000 : ℤ) := by
      have := Int.floor_le_floor h1
      simpa using this
    simp only [optimizeRenderShape]
    omega
  · intro h
    have hm : min d 180 = 180 := min_eq_right h
    simp only [optimizeRenderShape, hm]
    norm_num
    decide
  · simp only [optimizeRenderShape]
    norm_num
    decide

/-- Witness for optimizeRenderShape_spec at a 240-second source. -/
theorem optimizeRenderShape_spec_witness :
    ((180:ℚ) ≤ 240)
    ∧ ((optimizeRenderShape 240).channels = 1
       ∧ (optimizeRenderShape 240).rate = 16000
       ∧ (optimizeRenderShape 240).frames = (⌊min (240:ℚ) 180 * 16000⌋).toNat
       ∧ (optimizeRenderShape 240).frames ≤ 180 * 16000
       ∧ ((180:ℚ) ≤ 240 → (optimizeRenderShape 240).frames = 180 * 16000)
       ∧ (optimizeRenderShape 240).frames = 2880000) :=
  ⟨by norm_num, optimizeRenderShape_spec 240⟩



/-- An index loop mapped over a list is the list mapped directly. -/
theorem range_map_getD {β : Type} (l : List ℚ) (g : ℚ → β) :
    (List.range l.length).map (fun i => g (l.getD i 0)) = l.map g := by
  induction l with
  | nil => rfl
  | cons a l ih =>
    rw [List.length_cons, List.range_succ_eq_map, List.map_cons, List.map_map]
    simp only [Function.comp_def, List.getD_cons_zero, List.getD_cons_succ]
    rw [ih]
    rfl

/-- Flattening k whole 1152-blocks of a list gives its first k·1152
elements. -/
theorem blocks_flatten (k : ℕ) (l : List ℤ) :
    ((List.range k).map (fun j => (l.drop (j * 1152)).take 1152)).flatten
      = l.take (k * 1152) := by
  induction k with
  | zero => simp
  | succ k ih =>
    rw [List.range_succ, List.map_append, List.flatten_append, ih]
    simp only [List.map_cons, List.map_nil, List.flatten_cons, List.flatten_nil,
      List.append_nil]
    have he : k * 1152 + 1152 = (k + 1) * 1152 := by ring
    rw [← List.take_add, he]

/-- The 1152-sample blocks cut at the loop's start indices flatten back to
the whole list. -/
theorem chunkStarts_flatten (l : List ℤ) :
    ((chunkStarts l.length).map (fun i => (l.drop i).take 1152)).flatten = l := by
  unfold chunkStarts
  rw [List.map_map]
  have h1 : ((List.range ((l.length + 1151) / 1152)).map
      ((fun i => (l.drop i).take 1152) ∘ fun k => k * 1152)).flatten
      = l.take (((l.length + 1151) / 1152) * 1152) := blocks_flatten _ l
  rw [h1]
  apply List.take_of_length_le
  omega

/-- Dropping empty chunks changes neither the final codec state nor the
concatenated bytes. -/
theorem mp3Loop_encodeAll {σ : Type} (codec : Mp3Codec σ) (calls : List Mp3Feed) :
    ∀ s : σ, (mp3Loop codec s calls).1 = (encodeAll codec s calls).1
      ∧ (mp3Loop codec s calls).2.flatten = (encodeAll codec s calls).2.flatten := by
  induction calls with
  | nil => intro s; exact ⟨rfl, rfl⟩
  | cons c rest ih =>
    intro s
    simp only [mp3Loop, encodeAll]
    refine ⟨(ih _).1, ?_⟩
    by_cases h : 0 < (codec.encodeBuffer s c.left c.right).2.length
    · rw [if_pos h]
      simp only [List.flatten_cons]
      rw [(ih _).2]
    · rw [if_neg h]
      push_neg at h
      have hnil : (codec.encodeBuffer s c.left c.right).2 = [] :=
        List.eq_nil_of_length_eq_zero (by omega)
      simp only [List.flatten_cons, hnil, List.nil_append]
      rw [(ih _).2]

/-- audioBufferToMp3 concatenates every emitted chunk and then the flush
chunk. -/
theorem audioBufferToMp3_eq {σ : Type} (codec : Mp3Codec σ) (s0 : σ) (buf : AudioBuffer) :
    audioBufferToMp3 codec s0 buf =
      (encodeAll codec s0 (mp3FeedCalls buf)).2.flatten
        ++ codec.flush (encodeAll codec s0 (mp3FeedCalls buf)).1 := by
  have h1 := (mp3Loop_encodeAll codec (mp3FeedCalls buf) s0).1
  have h2 := (mp3Loop_encodeAll codec (mp3FeedCalls buf) s0).2
  simp only [audioBufferToMp3]
  by_cases hfl : 0 < (codec.flush (mp3Loop codec s0 (mp3FeedCalls buf)).1).length
  · rw [if_pos hfl, List.flatten_append, h2, h1]
    simp
  · rw [if_neg hfl]
    push_neg at hfl
    have hnil : codec.flush (mp3Loop codec s0 (mp3FeedCalls buf)).1 = [] :=
      List.eq_nil_of_length_eq_zero (by omega)
    rw [h2, ← h1, hnil, List.append_nil]

/-- C9 counterexample: on a mono one-sample buffer the encoder performs a
single encodeBuffer call whose right chunk is undefined (none), not a
duplicate of the left chunk: no duplicated right channel is fed to the
codec. -/
theorem mp3_mono_no_right_duplication :
    mp3FeedCalls ⟨1, 44100, [[1/2]]⟩ = [⟨[16383], none⟩]
    ∧ ¬ (∀ f ∈ mp3FeedCalls ⟨1, 44100, [[1/2]]⟩, f.right = some f.left) :=
  ⟨by decide, by decide⟩

/-- C9 amended: the MP3 adapter uses exactly the PCM encoder's clamped
16-bit conversion; the left chunks fed to the codec partition the
converted channel-0 samples into consecutive blocks of at most 1152
samples; a mono buffer is fed as a single channel with no right chunk
(stereo buffers feed a right chunk); and the output is the concatenation
of all emitted chunks followed by the flush chunk. -/
theorem audioBufferToMp3_spec {σ : Type} (codec : Mp3Codec σ) (s0 : σ)
    (buf : AudioBuffer) (s : ℚ) :
    mp3Convert s = wavConvert s
    ∧ ((mp3FeedCalls buf).map Mp3Feed.left).flatten
        = (getChannelData buf 0).map mp3Convert
    ∧ (∀ f ∈ mp3FeedCalls buf, f.left.length ≤ 1152)
    ∧ (buf.numberOfChannels = 1 → ∀ f ∈ mp3FeedCalls buf, f.right = none)
    ∧ (1 < buf.numberOfChannels → ∀ f ∈ mp3FeedCalls buf, f.right.isSome)
    ∧ audioBufferToMp3 codec s0 buf =
        (encodeAll codec s0 (mp3FeedCalls buf)).2.flatten
          ++ codec.flush (encodeAll codec s0 (mp3FeedCalls buf)).1 := by
  have hleft : (mp3FeedCalls buf).map Mp3Feed.left =
      (chunkStarts (getChannelData buf 0).length).map
        (fun i => (((getChannelData buf 0).map mp3Convert).drop i).take 1152) := by
    simp only [mp3FeedCalls, List.map_map, Function.comp_def]
    rw [range_map_getD (getChannelData buf 0) mp3Convert]
  refine ⟨rfl, ?_, ?_, ?_, ?_, audioBufferToMp3_eq codec s0 buf⟩
  · rw [hleft]
    have := chunkStarts_flatten ((getChannelData buf 0).map mp3Convert)
    rwa [List.length_map] at this
  · intro f hf
    simp only [mp3FeedCalls, List.mem_map] at hf
    obtain ⟨i, _, rfl⟩ := hf
    exact List.length_take_le _ _
  · intro hch f hf
    simp only [mp3FeedCalls, List.mem_map] at hf
    obtain ⟨i, _, rfl⟩ := hf
    simp [hch]
  · intro hch f hf
    simp only [mp3FeedCalls, List.mem_map] at hf
    obtain ⟨i, _, rfl⟩ := hf
    simp [hch]


/-- Witness for audioBufferToMp3_spec on a mono one-sample buffer with a
one-state codec. -/
theorem audioBufferToMp3_spec_witness :
    mp3Convert (1/2) = wavConvert (1/2)
    ∧ ((mp3FeedCalls ⟨1, 44100, [[1/2]]⟩).map Mp3Feed.left).flatten
        = (getChannelData ⟨1, 44100, [[1/2]]⟩ 0).map mp3Convert
    ∧ (∀ f ∈ mp3FeedCalls ⟨1, 44100, [[1/2]]⟩, f.left.length ≤ 1152)
    ∧ (AudioBuffer.numberOfChannels ⟨1, 44100, [[1/2]]⟩ = 1 →
        ∀ f ∈ mp3FeedCalls ⟨1, 44100, [[1/2]]⟩, f.right = none)
    ∧ (1 < AudioBuffer.numberOfChannels ⟨1, 44100, [[1/2]]⟩ →
        ∀ f ∈ mp3FeedCalls ⟨1, 44100, [[1/2]]⟩, f.right.isSome)
    ∧ audioBufferToMp3 (⟨fun u _ _ => (u, [7]), fun _ => [9]⟩ : Mp3Codec Unit) ()
          ⟨1, 44100, [[1/2]]⟩ =
        (encodeAll (⟨fun u _ _ => (u, [7]), fun _ => [9]⟩ : Mp3Codec Unit) ()
            (mp3FeedCalls ⟨1, 44100, [[1/2]]⟩)).2.flatten
          ++ Mp3Codec.flush (⟨fun u _ _ => (u, [7]), fun _ => [9]⟩ : Mp3Codec Unit)
              (encodeAll (⟨fun u _ _ => (u, [7]), fun _ => [9]⟩ : Mp3Codec Unit) ()
                (mp3FeedCalls ⟨1, 44100, [[1/2]]⟩)).1 :=
  audioBufferToMp3_spec (⟨fun u _ _ => (u, [7]), fun _ => [9]⟩ : Mp3Codec Unit) ()
    ⟨1, 44100, [[1/2]]⟩ (1/2)


/-- No base64 alphabet character is a comma. -/
theorem b64c_ne_comma (n : ℕ) : b64c n ≠ Char.ofNat 44 := by
  unfold b64c
  rcases Nat.lt_or_ge n base64Table.length with h | h
  · rw [List.getD_eq_getElem base64Table _ h]
    have hall : ∀ c ∈ base64Table, c ≠ Char.ofNat 44 := by decide
    exact hall _ (List.getElem_mem h)
  · rw [List.getD_eq_default _ _ h]
    decide

/-- A base64 encoding contains no comma. -/
theorem base64Of_no_comma (bytes : List ℕ) : ∀ c ∈ base64Of bytes, c ≠ Char.ofNat 44 := by
  induction bytes using base64Of.induct with
  | case1 => intro c hc; simp [base64Of] at hc
  | case2 a =>
    intro c hc
    simp only [base64Of, List.mem_cons, List.not_mem_nil, or_false] at hc
    rcases hc with rfl | rfl | rfl | rfl <;> first | exact b64c_ne_comma _ | decide
  | case3 a b =>
    intro c hc
    simp only [base64Of, List.mem_cons, List.not_mem_nil, or_false] at hc
    rcases hc with rfl | rfl | rfl | rfl <;> first | exact b64c_ne_comma _ | decide
  | case4 a b cc rest ih =>
    intro c hc
    simp only [base64Of, List.cons_append, List.nil_append, List.mem_cons] at hc
    rcases hc with rfl | rfl | rfl | rfl | hmem
    · exact b64c_ne_comma _
    · exact b64c_ne_comma _
    · exact b64c_ne_comma _
    · exact b64c_ne_comma _
    · exact ih c hmem

/-- Walking a comma-free prefix, afterComma returns the segment following
the first comma. -/
theorem afterComma_append (pre tail : List Char)
    (hpre : ∀ c ∈ pre, c ≠ Char.ofNat 44) :
    afterComma (pre ++ (Char.ofNat 44 :: tail))
      = tail.takeWhile (fun d => !decide (d = Char.ofNat 44)) := by
  induction pre with
  | nil =>
    rw [List.nil_append]
    simp [afterComma]
  | cons c rest ih =>
    rw [List.cons_append]
    simp only [afterComma]
    rw [if_neg (hpre c (by simp))]
    exact ih (fun x hx => hpre x (by simp [hx]))

/-- Splitting the data URL at its comma recovers exactly the base64
payload. -/
theorem afterComma_dataUrl (bytes : List ℕ) :
    afterComma (dataUrlOf bytes) = base64Of bytes := by
  have hnc := base64Of_no_comma bytes
  have hcomma : (',' : Char) = Char.ofNat 44 := by decide
  have hpre : ("data:audio/wav;base64,").toList =
      ['d','a','t','a',':','a','u','d','i','o','/','w','a','v',';',
       'b','a','s','e','6','4',','] := rfl
  have hsplit : dataUrlOf bytes =
      (['d','a','t','a',':','a','u','d','i','o','/','w','a','v',';',
        'b','a','s','e','6','4'] : List Char) ++ (Char.ofNat 44 :: base64Of bytes) := by
    unfold dataUrlOf
    rw [hpre, hcomma]
    rfl
  rw [hsplit, afterComma_append _ _ (by decide)]
  apply List.takeWhile_eq_self_iff.mpr
  intro x hx
  simpa using hnc x hx


/-- C10: every decode, render or reader failure of the analysis
pre-processor propagates to the caller as an error, and otherwise the
result is exactly the complete base64 encoding of the full WAV encoding of
the rendered buffer — never a partial or corrupt payload. -/
theorem optimize_error_propagation (decodeResult : Except OptError AudioBuffer)
    (render : RenderedShape → AudioBuffer → Except OptError AudioBuffer)
    (readerOk : Bool) :
    (∃ e, optimizeAudioForAnalysis decodeResult render readerOk = Except.error e)
    ∨ (∃ ab rb, decodeResult = Except.ok ab
        ∧ render (optimizeRenderShape (bufDuration ab)) ab = Except.ok rb
        ∧ optimizeAudioForAnalysis decodeResult render readerOk =
            Except.ok (base64Of (bufferToWavBlob rb))) := by
  cases decodeResult with
  | error e =>
    left
    exact ⟨e, rfl⟩
  | ok ab =>
    cases hr : render (optimizeRenderShape (bufDuration ab)) ab with
    | error e =>
      left
      refine ⟨e, ?_⟩
      simp [optimizeAudioForAnalysis, hr, Bind.bind, Except.bind]
    | ok rb =>
      cases readerOk with
      | false =>
        left
        refine ⟨OptError.encodeFailure, ?_⟩
        simp [optimizeAudioForAnalysis, hr, Bind.bind, Except.bind, throw, throwThe,
          MonadExceptOf.throw]
      | true =>
        right
        refine ⟨ab, rb, rfl, hr, ?_⟩
        simp [optimizeAudioForAnalysis, hr, afterComma_dataUrl, Bind.bind, Except.bind, pure, Pure.pure, Except.pure]



/-- The interleaved data section is 2 bytes per channel per frame. -/
theorem wavDataBytes_length (buf : AudioBuffer) :
    (wavDataBytes buf).length
      = (getChannelData buf 0).length * buf.numberOfChannels * 2 := by
  unfold wavDataBytes
  rw [List.length_flatMap]
  rw [show (List.map (List.length ∘ fun i =>
      (List.range buf.numberOfChannels).flatMap fun channel =>
        i16le (wavConvert ((getChannelData buf channel).getD i 0)))
      (List.range (getChannelData buf 0).length))
      = List.replicate (getChannelData buf 0).length (buf.numberOfChannels * 2) from ?_]
  · rw [List.sum_replicate, smul_eq_mul]
    ring
  · rw [show (List.length ∘ fun i =>
        (List.range buf.numberOfChannels).flatMap fun channel =>
          i16le (wavConvert ((getChannelData buf channel).getD i 0)))
        = fun _ : ℕ => buf.numberOfChannels * 2 from ?_]
    · rw [List.map_const', List.length_range]
    · funext i
      simp only [Function.comp]
      rw [List.length_flatMap]
      rw [show (List.map (List.length ∘ fun channel =>
          i16le (wavConvert ((getChannelData buf channel).getD i 0)))
          (List.range buf.numberOfChannels))
          = List.replicate buf.numberOfChannels 2 from ?_]
      · rw [List.sum_replicate, smul_eq_mul]
      · rw [show (List.length ∘ fun channel =>
            i16le (wavConvert ((getChannelData buf channel).getD i 0)))
            = fun _ : ℕ => 2 from funext fun c => rfl]
        rw [List.map_const', List.length_range]


/-- C1: the mastering render targets 2 channels at 48000 Hz with frame
count ceil(duration × 48000); with exportFormat wav the output is the WAV
encoding of the rendered buffer — 44 header bytes plus 2 bytes per channel
per frame — and for a 5-second source the header declares 2 channels
(offset 22), 48000 Hz (offset 24), 16-bit depth (offset 34) and a data
section of ceil(5 × 48000) × 2 × 2 = 960000 bytes (offset 40). -/
theorem processAudio_output_shape {σ : Type} (codec : Mp3Codec σ) (s0 : σ)
    (d : ℚ) (hd : 0 ≤ d) (o : AudioProcessOptions)
    (hwav : o.exportFormat = ExportFormat.wav) (buf : AudioBuffer)
    (hch : buf.numberOfChannels = (masterRenderShape d).channels)
    (hsr : buf.sampleRate = (masterRenderShape d).rate)
    (hlen : (getChannelData buf 0).length = (masterRenderShape d).frames) :
    (masterRenderShape d).channels = 2
    ∧ (masterRenderShape d).rate = 48000
    ∧ (((masterRenderShape d).frames : ℤ) = ⌈d * 48000⌉)
    ∧ (processAudioOutput codec s0 o buf).length
        = 44 + (masterRenderShape d).frames * 2 * 2
    ∧ (d = 5 →
        (masterRenderShape d).frames = 240000
        ∧ processAudioOutput codec s0 o buf
            = wavHeader 2 48000 960000 ++ wavDataBytes buf
        ∧ ((wavHeader 2 48000 960000).drop 22).take 2 = [2, 0]
        ∧ ((wavHeader 2 48000 960000).drop 24).take 4 = [128, 187, 0, 0]
        ∧ ((wavHeader 2 48000 960000).drop 34).take 2 = [16, 0]
        ∧ ((wavHeader 2 48000 960000).drop 40).take 4 = [0, 166, 14, 0]
        ∧ (wavHeader 2 48000 960000).length = 44
        ∧ (wavDataBytes buf).length = 960000) := by
  have hout : processAudioOutput codec s0 o buf = audioBufferToWav buf := by
    simp [processAudioOutput, hwav]
  have hframes5 : d = 5 → (masterRenderShape d).frames = 240000 := by
    intro h5
    simp only [masterRenderShape, h5]
    norm_num
    decide
  refine ⟨rfl, rfl, ?_, ?_, fun h5 => ?_⟩
  · simp only [masterRenderShape]
    exact Int.toNat_of_nonneg (Int.ceil_nonneg (by positivity))
  · rw [hout]
    unfold audioBufferToWav
    rw [List.length_append, wavHeader_length, wavDataBytes_length, hch, hlen]
    simp only [masterRenderShape]
  · have hf := hframes5 h5
    refine ⟨hf, ?_, by decide, by decide, by decide, by decide, by decide, ?_⟩
    · rw [hout]
      unfold audioBufferToWav
      rw [hch, hsr, hlen, hf]
      simp only [masterRenderShape]
    · rw [wavDataBytes_length, hch, hlen, hf]
      simp only [masterRenderShape]

/-- Witness for processAudio_output_shape at a 5-second silent rendered
buffer. -/
theorem processAudio_output_shape_witness :
    ((0:ℚ) ≤ 5)
    ∧ (AudioProcessOptions.exportFormat
        ⟨Intensity.medium, StereoWidth.normal, true, true, true,
         ExportFormat.wav, some MasteringPreset.balanced, ⟨0, 0, 0⟩⟩ = ExportFormat.wav)
    ∧ (AudioBuffer.numberOfChannels
        ⟨2, 48000, [List.replicate 240000 0, List.replicate 240000 0]⟩
        = (masterRenderShape 5).channels)
    ∧ (AudioBuffer.sampleRate
        ⟨2, 48000, [List.replicate 240000 0, List.replicate 240000 0]⟩
        = (masterRenderShape 5).rate)
    ∧ ((getChannelData ⟨2, 48000, [List.replicate 240000 0, List.replicate 240000 0]⟩ 0).length
        = (masterRenderShape 5).frames)
    ∧ ((masterRenderShape 5).channels = 2
       ∧ (masterRenderShape 5).rate = 48000
       ∧ (((masterRenderShape 5).frames : ℤ) = ⌈(5:ℚ) * 48000⌉)
       ∧ (processAudioOutput (⟨fun u _ _ => (u, [7]), fun _ => [9]⟩ : Mp3Codec Unit) ()
            ⟨Intensity.medium, StereoWidth.normal, true, true, true,
             ExportFormat.wav, some MasteringPreset.balanced, ⟨0, 0, 0⟩⟩
            ⟨2, 48000, [List.replicate 240000 0, List.replicate 240000 0]⟩).length
          = 44 + (masterRenderShape 5).frames * 2 * 2
       ∧ ((5:ℚ) = 5 →
          (masterRenderShape 5).frames = 240000
          ∧ processAudioOutput (⟨fun u _ _ => (u, [7]), fun _ => [9]⟩ : Mp3Codec Unit) ()
              ⟨Intensity.medium, StereoWidth.normal, true, true, true,
               ExportFormat.wav, some MasteringPreset.balanced, ⟨0, 0, 0⟩⟩
              ⟨2, 48000, [List.replicate 240000 0, List.replicate 240000 0]⟩
              = wavHeader 2 48000 960000 ++
                wavDataBytes ⟨2, 48000, [List.replicate 240000 0, List.replicate 240000 0]⟩
          ∧ ((wavHeader 2 48000 960000).drop 22).take 2 = [2, 0]
          ∧ ((wavHeader 2 48000 960000).drop 24).take 4 = [128, 187, 0, 0]
          ∧ ((wavHeader 2 48000 960000).drop 34).take 2 = [16, 0]
          ∧ ((wavHeader 2 48000 960000).drop 40).take 4 = [0, 166, 14, 0]
          ∧ (wavHeader 2 48000 960000).length = 44
          ∧ (wavDataBytes ⟨2, 48000,
              [List.replicate 240000 0, List.replicate 240000 0]⟩).length = 960000)) :=
  ⟨by norm_num, rfl, rfl, rfl,
   by
     show (List.replicate 240000 (0:ℚ)).length = _
     rw [List.length_replicate]
     simp only [masterRenderShape]
     norm_num
     decide,
   processAudio_output_shape (⟨fun u _ _ => (u, [7]), fun _ => [9]⟩ : Mp3Codec Unit) ()
     5 (by norm_num)
     ⟨Intensity.medium, StereoWidth.normal, true, true, true,
      ExportFormat.wav, some MasteringPreset.balanced, ⟨0, 0, 0⟩⟩ rfl
     ⟨2, 48000, [List.replicate 240000 0, List.replicate 240000 0]⟩ rfl rfl
     (by
       show (List.replicate 240000 (0:ℚ)).length = _
       rw [List.length_replicate]
       simp only [masterRenderShape]
       norm_num
       decide)⟩

end AfriSuno
